import Mathlib

set_option maxRecDepth 2000
set_option maxHeartbeats 1000000

/-
  Verification of the inventory & sales console application (src/simulacro.py).

  Shallow embedding conventions:
  - Money values (prices, gross, net) are rationals; Python's round(x, 2) is
    modelled by round2, rounding half to even at two decimal places, matching
    the documented behaviour of Python's built-in round on exact values.
  - Stock quantities and warranty months are integers; the Python ints have
    no overflow, so plain Int is faithful.
  - The module-level dicts (inventory keyed by product id, insertion ordered)
    are modelled as association lists; the sales list is a plain list.
  - Interactive input loops (safe_int, safe_float, choose_product_id) only
    re-prompt until validation passes; operations are modelled as functions
    on the already-validated values, with the validation ranges recorded as
    hypotheses where an operation relies on them.
  - datetime.now() timestamps are omitted: no claim mentions dates.
-/

namespace Simulacro

/- Product record: inventory[product_id] = {name, brand, category, price,
   stock, warranty_months, initial_stock} (src/simulacro.py line 20). -/
structure Product where
  name : String
  brand : String
  category : String
  price : ℚ
  stock : ℤ
  warranty_months : ℤ
  initial_stock : ℤ
deriving DecidableEq

/- Sale record fields as built in register_sale (src/simulacro.py lines
   259-272); the date field is omitted. -/
structure Sale where
  sale_id : ℤ
  client : String
  client_type : String
  product_id : ℤ
  product_name : String
  brand : String
  quantity : ℤ
  unit_price : ℚ
  discount_pct : ℚ
  gross : ℚ
  net : ℚ
deriving DecidableEq

/- The module-level mutable state: inventory dict, sales list and the two
   id counters (src/simulacro.py lines 19-37). -/
structure LState where
  inventory : List (ℤ × Product)
  sales : List Sale
  next_sale_id : ℤ
  next_product_id : ℤ
deriving DecidableEq

/-- Round a rational to the nearest integer, ties to even: the behaviour of
Python's built-in round on exact decimal values. -/
def roundHalfToEven (q : ℚ) : ℤ :=
  let f := q.floor
  let r := q - (f : ℚ)
  if r < 1/2 then f
  else if 1/2 < r then f + 1
  else if f % 2 = 0 then f else f + 1

/-- Python's round(x, 2): scale by 100, round half to even, scale back. -/
def round2 (q : ℚ) : ℚ :=
  ((roundHalfToEven (q * 100) : ℤ) : ℚ) / 100

/-- A rational is an exact multiple of one cent. -/
def isCent (q : ℚ) : Prop := ∃ n : ℤ, q = (n : ℚ) / 100

/- Dict lookup inventory.get(pid) on the association list: first match. -/
def lookupProd : List (ℤ × Product) → ℤ → Option Product
  | [], _ => none
  | kv :: rest, pid => if kv.1 = pid then some kv.2 else lookupProd rest pid

/- In-place mutation of the dict entry at a key (order preserved). -/
def setProd (inv : List (ℤ × Product)) (pid : ℤ) (p : Product) :
    List (ℤ × Product) :=
  inv.map (fun kv => if kv.1 = pid then (kv.1, p) else kv)

/-- Python's str.lower() on the characters of the string.  Char.toLower
covers the basic latin letters, which is all the discount keywords use. -/
def strLower (s : String) : String :=
  ⟨s.data.map Char.toLower⟩

/-- calculate_discount_pct (src/simulacro.py lines 214-223): lower-cases the
client type, then a fixed lookup vip 10, employee 30, wholesale 15, else 0. -/
def calculate_discount_pct (client_type : String) : ℚ :=
  let c := strLower client_type
  if c = "vip" then 10
  else if c = "employee" then 30
  else if c = "wholesale" then 15
  else 0

/-- revenue_calc (src/simulacro.py line 226): round(unit_price * qty, 2). -/
def revenue_calc (unit_price : ℚ) (qty : ℤ) : ℚ :=
  round2 (unit_price * (qty : ℚ))

inductive SaleError where
  | InsufficientStock
  | NotFound
deriving DecidableEq

/-- The sale dict built on the success path of register_sale
(src/simulacro.py lines 250-272): discount_pct = calculate_discount_pct,
gross = revenue_calc(unit_price, qty),
discount_amount = round(gross * (discount_pct / 100.0), 2),
net = round(gross - discount_amount, 2). -/
def sale_record (st : LState) (client client_type : String) (pid qty : ℤ)
    (p : Product) : Sale :=
  let discount_pct := calculate_discount_pct client_type
  let gross := revenue_calc p.price qty
  let discount_amount := round2 (gross * (discount_pct / 100))
  let net := round2 (gross - discount_amount)
  { sale_id := st.next_sale_id
    client := client
    client_type := client_type
    product_id := pid
    product_name := p.name
    brand := p.brand
    quantity := qty
    unit_price := p.price
    discount_pct := discount_pct
    gross := gross
    net := net }

/-- The state mutations on the success path of register_sale: the product's
stock is decremented in place, the sale appended, the counter advanced
(src/simulacro.py lines 256-274). -/
def sale_result (st : LState) (client client_type : String) (pid qty : ℤ)
    (p : Product) : LState :=
  { st with
      inventory := setProd st.inventory pid { p with stock := p.stock - qty }
      sales := st.sales ++ [sale_record st client client_type pid qty p]
      next_sale_id := st.next_sale_id + 1 }

/-- register_sale (src/simulacro.py lines 228-276) after the interactive
input phase: client name nonempty, client_type string, product id looked up
(choose_product_id re-prompts until the id exists, modelled as NotFound),
quantity validated by safe_int with min 1.  If qty exceeds stock the sale is
aborted before any mutation; otherwise the computations and mutations of
sale_record and sale_result above happen. -/
def register_sale (st : LState) (client client_type : String)
    (pid qty : ℤ) : Except SaleError LState :=
  match lookupProd st.inventory pid with
  | none => .error .NotFound
  | some product =>
    if qty > product.stock then .error .InsufficientStock
    else .ok (sale_result st client client_type pid qty product)

/-- The state after the Register sale menu action: an aborted sale leaves
the state untouched (register_sale prints a message and returns). -/
def register_sale_menu (st : LState) (client client_type : String)
    (pid qty : ℤ) : LState :=
  match register_sale st client client_type pid qty with
  | .ok st2 => st2
  | .error _ => st

/- The five seeded products (src/simulacro.py lines 21-25), named for use
   in concrete instances below. -/
def p_aurora : Product :=
  { name := "Aurora Headphones", brand := "Soundix", category := "Audio",
    price := 7999/100, stock := 25, warranty_months := 12,
    initial_stock := 25 }

def p_volt : Product :=
  { name := "Volt Charger 65W", brand := "Ampere", category := "Power",
    price := 3950/100, stock := 40, warranty_months := 24,
    initial_stock := 40 }

def p_nexus : Product :=
  { name := "Nexus 10 Tablet", brand := "NovaTech", category := "Computers",
    price := 249, stock := 10, warranty_months := 12, initial_stock := 10 }

def p_pixelcam : Product :=
  { name := "PixelCam 4K", brand := "OptiSight", category := "Cameras",
    price := 499, stock := 6, warranty_months := 24, initial_stock := 6 }

def p_smartplug : Product :=
  { name := "HomeSyx SmartPlug", brand := "HomeSyx", category := "SmartHome",
    price := 1999/100, stock := 60, warranty_months := 6,
    initial_stock := 60 }

/-- The preloaded catalog (src/simulacro.py lines 19-26) together with the
initial counters: _next_product_id = 6, _next_sale_id = 1, no sales. -/
def initial_state : LState :=
  { inventory :=
      [(1, p_aurora), (2, p_volt), (3, p_nexus), (4, p_pixelcam),
       (5, p_smartplug)]
    sales := []
    next_sale_id := 1
    next_product_id := 6 }

/-- register_product (src/simulacro.py lines 105-135) after the input phase:
name and brand nonempty (enforced by early returns), category defaulted to
General when blank, price from safe_float with min 0, stock and warranty from
safe_int with min 0.  The new product is stored under _next_product_id with
price rounded to 2 decimals and initial_stock equal to the entered stock,
then the counter is advanced. -/
def register_product (st : LState) (name brand category : String)
    (price : ℚ) (stock warranty : ℤ) : LState :=
  { st with
      inventory := st.inventory ++
        [ (st.next_product_id,
           { name := name, brand := brand, category := category
             price := round2 price, stock := stock
             warranty_months := warranty, initial_stock := stock }) ]
      next_product_id := st.next_product_id + 1 }

/-- One interactive field of update_product: the user leaves it blank, types
something unparseable, or supplies a parsed value. -/
inductive FieldInput (α : Type) where
  | blank
  | malformed
  | value (v : α)
deriving DecidableEq

/-- The six field prompts of update_product.  A text field cannot be
malformed: after strip it is either empty (keep) or taken verbatim, so an
Option suffices; none stands for a blank entry. -/
structure UpdateInput where
  name : Option String
  brand : Option String
  category : Option String
  price : FieldInput ℚ
  stock : FieldInput ℤ
  warranty : FieldInput ℤ
deriving DecidableEq

/-- update_product (src/simulacro.py lines 145-193) applied to one product:
each supplied field is validated independently (price, stock and warranty
must parse and be non-negative, otherwise the old value is kept with a
message) and applied in place.  The source writes the six fields one after
another and no field depends on another, so the record update below is the
same function.  initial_stock is deliberately never written (comment at
line 179). -/
def update_product (p : Product) (u : UpdateInput) : Product :=
  { name := match u.name with
      | some n => n
      | none => p.name
    brand := match u.brand with
      | some b => b
      | none => p.brand
    category := match u.category with
      | some c => c
      | none => p.category
    price := match u.price with
      | .value v => if v < 0 then p.price else round2 v
      | _ => p.price
    stock := match u.stock with
      | .value v => if v < 0 then p.stock else v
      | _ => p.stock
    warranty_months := match u.warranty with
      | .value v => if v < 0 then p.warranty_months else v
      | _ => p.warranty_months
    initial_stock := p.initial_stock }

/-- The state after the Update product menu action on product pid (which
choose_product_id guarantees to exist; on an absent id this is a no-op). -/
def update_product_state (st : LState) (pid : ℤ) (u : UpdateInput) : LState :=
  { st with inventory :=
      st.inventory.map (fun kv =>
        if kv.1 = pid then (kv.1, update_product kv.2 u) else kv) }

inductive DeleteError where
  | Conflict
  | NotFound
deriving DecidableEq

/-- delete_product (src/simulacro.py lines 195-208) after the user confirmed
with y: if any sale references the id the deletion is refused (historical
integrity), otherwise the entry is removed from the dict. -/
def delete_product (st : LState) (pid : ℤ) : Except DeleteError LState :=
  match lookupProd st.inventory pid with
  | none => .error .NotFound
  | some _ =>
    if st.sales.any (fun s => s.product_id = pid) then .error .Conflict
    else .ok { st with
                 inventory := st.inventory.filter (fun kv => kv.1 ≠ pid) }

/-- The state after the Delete product menu action: a refused deletion
leaves the state untouched. -/
def delete_product_menu (st : LState) (pid : ℤ) : LState :=
  match delete_product st pid with
  | .ok st2 => st2
  | .error _ => st

/-- One entry of the hard-coded demo list in preload_demo_sales
(src/simulacro.py lines 391-397). -/
structure DemoSale where
  client : String
  client_type : String
  product_id : ℤ
  quantity : ℤ
deriving DecidableEq

/-- The five demo sales preloaded at startup (src/simulacro.py 391-397). -/
def demo_sales_data : List DemoSale :=
  [ { client := "Alice", client_type := "vip", product_id := 1, quantity := 3 }
  , { client := "Bob", client_type := "regular", product_id := 2,
      quantity := 5 }
  , { client := "Charlie Co.", client_type := "wholesale", product_id := 5,
      quantity := 20 }
  , { client := "Diana", client_type := "employee", product_id := 3,
      quantity := 1 }
  , { client := "Eve", client_type := "regular", product_id := 4,
      quantity := 2 } ]

/-- The sale dict built by the preload loop (src/simulacro.py lines
406-423); unlike register_sale, here the net is computed directly as
round(gross * (1 - discount_pct / 100.0), 2) (line 408). -/
def preload_sale_record (st : LState) (d : DemoSale) (p : Product)
    (qty : ℤ) : Sale :=
  let discount_pct := calculate_discount_pct d.client_type
  let gross := revenue_calc p.price qty
  let net := round2 (gross * (1 - discount_pct / 100))
  { sale_id := st.next_sale_id
    client := d.client
    client_type := d.client_type
    product_id := d.product_id
    product_name := p.name
    brand := p.brand
    quantity := qty
    unit_price := p.price
    discount_pct := discount_pct
    gross := gross
    net := net }

/-- The state mutations of one successful preload iteration
(src/simulacro.py lines 409, 424-425). -/
def preload_sale_result (st : LState) (d : DemoSale) (p : Product)
    (qty : ℤ) : LState :=
  { st with
      inventory := setProd st.inventory d.product_id
        { p with stock := p.stock - qty }
      sales := st.sales ++ [preload_sale_record st d p qty]
      next_sale_id := st.next_sale_id + 1 }

/-- The body of the loop in preload_demo_sales (src/simulacro.py lines
398-425): skip a missing product, clamp the quantity to the available stock
(qty = min(requested, stock)), skip if the clamped quantity is not positive,
otherwise record the sale and decrement the stock. -/
def preload_step (st : LState) (d : DemoSale) : LState :=
  match lookupProd st.inventory d.product_id with
  | none => st
  | some p =>
    let qty := min d.quantity p.stock
    if qty ≤ 0 then st
    else preload_sale_result st d p qty

/-- preload_demo_sales (src/simulacro.py lines 385-425): fold the loop body
over the demo list.  main_menu calls this once, before the first prompt
(lines 427-430). -/
def preload_demo_sales (st : LState) : LState :=
  demo_sales_data.foldl preload_step st

/- -----------------------------------------------------------------
   Reports
   ----------------------------------------------------------------- -/

/-- Total quantity sold of a product id: the value the defaultdict in
top_n_products and inventory_performance accumulates for that key. -/
def sumQty (pid : ℤ) (sales : List Sale) : ℤ :=
  ((sales.filter (fun s => s.product_id = pid)).map (fun s => s.quantity)).sum

/-- The product ids in order of first appearance in the sales list: the key
order of the defaultdict after the accumulation loop. -/
def firstOccs (sales : List Sale) : List ℤ :=
  sales.foldl
    (fun acc s => if s.product_id ∈ acc then acc else acc ++ [s.product_id])
    []

/-- One iteration of the accumulation loop sold[s.product_id] += s.quantity
over a defaultdict(int) represented as an association list: a new key is
appended with its initial contribution, an existing key is updated in
place. -/
def addSold (acc : List (ℤ × ℤ)) (s : Sale) : List (ℤ × ℤ) :=
  if acc.any (fun kv => kv.1 = s.product_id) then
    acc.map (fun kv =>
      if kv.1 = s.product_id then (kv.1, kv.2 + s.quantity) else kv)
  else acc ++ [(s.product_id, s.quantity)]

/-- The defaultdict of quantities per product id built by top_n_products
(src/simulacro.py lines 294-296) and inventory_performance (lines 339-341):
iteration order is key insertion order. -/
def soldTotals (sales : List Sale) : List (ℤ × ℤ) :=
  sales.foldl addSold []

/-- Lookup in an association list of id/quantity pairs (first match). -/
def lookupKV : List (ℤ × ℤ) → ℤ → Option ℤ
  | [], _ => none
  | kv :: rest, pid => if kv.1 = pid then some kv.2 else lookupKV rest pid

/-- The comparison used on line 300 of src/simulacro.py: entry a may come
before entry b when a's summed quantity is at least b's (descending). -/
def saleOrd (a b : ℤ × ℤ) : Prop := b.2 ≤ a.2

instance : DecidableRel saleOrd := fun a b => Int.decLe b.2 a.2

instance : IsTotal (ℤ × ℤ) saleOrd := ⟨fun a b => le_total b.2 a.2⟩

instance : IsTrans (ℤ × ℤ) saleOrd := ⟨fun _ _ _ h1 h2 => le_trans h2 h1⟩

/-- Python's sorted(items, key quantity, reverse) is a stable descending
sort; stable insertion sort computes the same list, so this models line 300
of src/simulacro.py exactly. -/
def sortDesc (l : List (ℤ × ℤ)) : List (ℤ × ℤ) :=
  l.insertionSort saleOrd

/-- The name printed for a ranked product id: inventory.get(pid, fallback)
with the Deleted product placeholder (src/simulacro.py line 303). -/
def nameFor (st : LState) (pid : ℤ) : String :=
  match lookupProd st.inventory pid with
  | some p => p.name
  | none => "Deleted product"

/-- top_n_products (src/simulacro.py lines 292-305): accumulate quantities
per product id, sort descending by quantity (stable), keep the first n, and
print name, id and quantity per rank.  The printed rows are returned as a
list of triples. -/
def top_n_products (st : LState) (n : ℕ) : List (String × ℤ × ℤ) :=
  ((sortDesc (soldTotals st.sales)).take n).map
    (fun kv => (nameFor st kv.1, kv.1, kv.2))

/-- income_report (src/simulacro.py lines 320-331): none when there are no
sales (early return), otherwise the printed totals (gross, net, discount)
where only the discount line applies round explicitly. -/
def income_report (sales : List Sale) : Option (ℚ × ℚ × ℚ) :=
  if sales = [] then none
  else
    let total_gross := (sales.map (fun s => s.gross)).sum
    let total_net := (sales.map (fun s => s.net)).sum
    some (total_gross, total_net, round2 (total_gross - total_net))

/-- The four inventory performance labels printed by inventory_performance
(src/simulacro.py lines 349-355); the source prints them with spaces (OUT
OF STOCK and so on). -/
inductive PerfStatus where
  | OK
  | OUT_OF_STOCK
  | FAST_MOVING
  | SLOW_MOVING
deriving DecidableEq

/-- The turnover percentage (src/simulacro.py line 348):
sold / initial * 100 when the initial stock is positive, else 0. -/
def turnover_pct (sold initial : ℤ) : ℚ :=
  if 0 < initial then (sold : ℚ) / (initial : ℚ) * 100 else 0

/-- The status chain of ifs (src/simulacro.py lines 349-355). -/
def classify (remaining : ℤ) (turnover : ℚ) : PerfStatus :=
  if remaining = 0 then .OUT_OF_STOCK
  else if turnover > 50 then .FAST_MOVING
  else if turnover < 10 then .SLOW_MOVING
  else .OK

/-- One printed row of inventory_performance. -/
structure PerfEntry where
  pid : ℤ
  name : String
  sold : ℤ
  initial : ℤ
  remaining : ℤ
  turnover : ℚ
  status : PerfStatus
deriving DecidableEq

/-- inventory_performance (src/simulacro.py lines 333-357): accumulate sold
quantities per product id exactly as top_n_products does, then one row per
catalog product with sold.get(pid, 0), the turnover percentage and the
status classification. -/
def inventory_performance (st : LState) : List PerfEntry :=
  let sold := soldTotals st.sales
  st.inventory.map (fun kv =>
    let initial := kv.2.initial_stock
    let sold_qty := (lookupKV sold kv.1).getD 0
    let remaining := kv.2.stock
    let t := turnover_pct sold_qty initial
    { pid := kv.1, name := kv.2.name, sold := sold_qty, initial := initial
      remaining := remaining, turnover := t, status := classify remaining t })

example : round2 (9/200) = 1/25 := by with_unfolding_all decide
example : round2 (1/200) = 0 := by with_unfolding_all decide
example : calculate_discount_pct "VIP" = 10 := by with_unfolding_all decide
example : (register_sale initial_state "A" "vip" 1 3).isOk = true := by
  with_unfolding_all decide
example :
    (preload_demo_sales initial_state).sales.map
      (fun s => (s.sale_id, s.client, s.product_id, s.quantity)) =
    [(1, "Alice", 1, 3), (2, "Bob", 2, 5), (3, "Charlie Co.", 5, 20),
     (4, "Diana", 3, 1), (5, "Eve", 4, 2)] := by
  with_unfolding_all decide
example :
    (lookupProd (preload_demo_sales initial_state).inventory 5).map
      (fun p => p.stock) = some 40 := by
  with_unfolding_all decide
example :
    top_n_products (preload_demo_sales initial_state) 3 =
    [("HomeSyx SmartPlug", 5, 20), ("Volt Charger 65W", 2, 5),
     ("Aurora Headphones", 1, 3)] := by
  with_unfolding_all decide

/- -----------------------------------------------------------------
   Helper lemmas: rounding and cent multiples
   ----------------------------------------------------------------- -/

theorem rat_floor_intCast (n : ℤ) : ((n : ℚ)).floor = n := by
  rw [Rat.floor_def']
  simp

theorem roundHalfToEven_intCast (n : ℤ) : roundHalfToEven (n : ℚ) = n := by
  unfold roundHalfToEven
  rw [rat_floor_intCast]
  norm_num

theorem round2_div100 (n : ℤ) : round2 ((n : ℚ) / 100) = (n : ℚ) / 100 := by
  unfold round2
  rw [div_mul_cancel₀ _ (by norm_num : (100 : ℚ) ≠ 0), roundHalfToEven_intCast]

theorem isCent_round2 (q : ℚ) : isCent (round2 q) :=
  ⟨roundHalfToEven (q * 100), rfl⟩

theorem round2_eq_self {q : ℚ} (h : isCent q) : round2 q = q := by
  rcases h with ⟨n, rfl⟩
  exact round2_div100 n

theorem isCent_add {a b : ℚ} (ha : isCent a) (hb : isCent b) :
    isCent (a + b) := by
  rcases ha with ⟨m, rfl⟩
  rcases hb with ⟨n, rfl⟩
  exact ⟨m + n, by push_cast; ring⟩

theorem isCent_sub {a b : ℚ} (ha : isCent a) (hb : isCent b) :
    isCent (a - b) := by
  rcases ha with ⟨m, rfl⟩
  rcases hb with ⟨n, rfl⟩
  exact ⟨m - n, by push_cast; ring⟩

theorem isCent_sum {l : List ℚ} (h : ∀ q ∈ l, isCent q) : isCent l.sum := by
  induction l with
  | nil => exact ⟨0, by norm_num⟩
  | cons a l ih =>
    rw [List.sum_cons]
    exact isCent_add (h a (List.mem_cons_self a l))
      (ih fun q hq => h q (List.mem_cons_of_mem a hq))

/- -----------------------------------------------------------------
   Helper lemmas: association-list operations
   ----------------------------------------------------------------- -/

theorem lookupProd_cons (kv : ℤ × Product) (rest : List (ℤ × Product))
    (pid : ℤ) :
    lookupProd (kv :: rest) pid =
      if kv.1 = pid then some kv.2 else lookupProd rest pid := rfl

theorem setProd_cons (kv : ℤ × Product) (rest : List (ℤ × Product))
    (pid : ℤ) (p : Product) :
    setProd (kv :: rest) pid p =
      (if kv.1 = pid then (kv.1, p) else kv) :: setProd rest pid p := rfl

theorem lookupProd_setProd_self {inv : List (ℤ × Product)} {pid : ℤ}
    {p0 : Product} (p : Product) (h : lookupProd inv pid = some p0) :
    lookupProd (setProd inv pid p) pid = some p := by
  induction inv with
  | nil => simp [lookupProd] at h
  | cons kv rest ih =>
    rw [setProd_cons]
    by_cases hk : kv.1 = pid
    · rw [if_pos hk, lookupProd_cons]
      simp [hk]
    · rw [if_neg hk, lookupProd_cons, if_neg hk]
      rw [lookupProd_cons, if_neg hk] at h
      exact ih h

theorem lookupProd_setProd_ne {inv : List (ℤ × Product)} {pid pid2 : ℤ}
    (p : Product) (h : pid2 ≠ pid) :
    lookupProd (setProd inv pid p) pid2 = lookupProd inv pid2 := by
  induction inv with
  | nil => simp [lookupProd, setProd]
  | cons kv rest ih =>
    rw [setProd_cons, lookupProd_cons, lookupProd_cons]
    by_cases hk : kv.1 = pid
    · have hne : kv.1 ≠ pid2 := by rw [hk]; exact fun e => h e.symm
      rw [if_pos hk]
      simp [hne, ih]
    · rw [if_neg hk]
      by_cases h2 : kv.1 = pid2
      · simp [h2]
      · simp only [h2, if_false, ite_false]
        exact ih

theorem lookupProd_mem {inv : List (ℤ × Product)} {pid : ℤ} {p : Product}
    (h : lookupProd inv pid = some p) : (pid, p) ∈ inv := by
  induction inv with
  | nil => simp [lookupProd] at h
  | cons kv rest ih =>
    rw [lookupProd_cons] at h
    by_cases hk : kv.1 = pid
    · rw [if_pos hk] at h
      obtain rfl : kv.2 = p := Option.some_injective _ h
      subst hk
      rw [Prod.mk.eta]
      exact List.Mem.head rest
    · rw [if_neg hk] at h
      exact List.mem_cons_of_mem kv (ih h)

theorem mem_setProd {inv : List (ℤ × Product)} {pid : ℤ} {p : Product}
    {kv2 : ℤ × Product} (h : kv2 ∈ setProd inv pid p) :
    kv2.2 = p ∨ kv2 ∈ inv := by
  unfold setProd at h
  rcases List.mem_map.1 h with ⟨kv, hkv, hkv2⟩
  by_cases hk : kv.1 = pid
  · rw [if_pos hk] at hkv2
    left
    rw [← hkv2]
  · rw [if_neg hk] at hkv2
    right
    rw [← hkv2]
    exact hkv

theorem setProd_fst {inv : List (ℤ × Product)} {pid : ℤ} {p : Product} :
    (setProd inv pid p).map Prod.fst = inv.map Prod.fst := by
  unfold setProd
  rw [List.map_map]
  congr 1
  funext kv
  by_cases hk : kv.1 = pid <;> simp [hk]

/- -----------------------------------------------------------------
   Helper lemmas: register_sale inversion
   ----------------------------------------------------------------- -/

theorem register_sale_lookup {st : LState} {client ctype : String}
    {pid qty : ℤ} {p : Product}
    (hp : lookupProd st.inventory pid = some p) :
    register_sale st client ctype pid qty =
      if qty > p.stock then .error .InsufficientStock
      else .ok (sale_result st client ctype pid qty p) := by
  unfold register_sale
  rw [hp]

theorem register_sale_eq_ok {st : LState} {client ctype : String}
    {pid qty : ℤ} {p : Product}
    (hp : lookupProd st.inventory pid = some p) (hle : qty ≤ p.stock) :
    register_sale st client ctype pid qty =
      .ok (sale_result st client ctype pid qty p) := by
  rw [register_sale_lookup hp, if_neg (not_lt.mpr hle)]

theorem register_sale_eq_err {st : LState} {client ctype : String}
    {pid qty : ℤ} {p : Product}
    (hp : lookupProd st.inventory pid = some p) (hgt : p.stock < qty) :
    register_sale st client ctype pid qty = .error .InsufficientStock := by
  rw [register_sale_lookup hp, if_pos hgt]

theorem register_sale_none {st : LState} {client ctype : String}
    {pid qty : ℤ} (hp : lookupProd st.inventory pid = none) :
    register_sale st client ctype pid qty = .error .NotFound := by
  unfold register_sale
  rw [hp]

theorem register_sale_ok_elim {st st2 : LState} {client ctype : String}
    {pid qty : ℤ}
    (h : register_sale st client ctype pid qty = .ok st2) :
    ∃ p, lookupProd st.inventory pid = some p ∧ qty ≤ p.stock ∧
      st2 = sale_result st client ctype pid qty p := by
  cases hp : lookupProd st.inventory pid with
  | none => rw [register_sale_none hp] at h; exact absurd h (by simp)
  | some p =>
    by_cases hle : qty ≤ p.stock
    · rw [register_sale_eq_ok hp hle] at h
      exact ⟨p, rfl, hle, (Except.ok.injEq _ _ ▸ h).symm⟩
    · rw [register_sale_eq_err hp (not_le.mp hle)] at h
      exact absurd h (by simp)

/- -----------------------------------------------------------------
   The operations reachable from the menu loop, as a step relation
   ----------------------------------------------------------------- -/

/-- One completed menu action that can change the ledger state.  The
hypotheses on register record the ranges the input loops enforce:
safe_float min 0 for the price, safe_int min 0 for stock and warranty
(src/simulacro.py lines 118-120); the hypothesis on sale records safe_int
min 1 for the quantity (line 240).  Show/consult actions do not change
state and need no constructor. -/
inductive Step : LState → LState → Prop where
  | register (st : LState) (name brand category : String) (price : ℚ)
      (stock warranty : ℤ) :
      0 ≤ price → 0 ≤ stock → 0 ≤ warranty →
      Step st (register_product st name brand category price stock warranty)
  | update (st : LState) (pid : ℤ) (u : UpdateInput) :
      Step st (update_product_state st pid u)
  | sale (st : LState) (client client_type : String) (pid qty : ℤ) :
      1 ≤ qty →
      Step st (register_sale_menu st client client_type pid qty)
  | del (st : LState) (pid : ℤ) :
      Step st (delete_product_menu st pid)
  | preload (st : LState) :
      Step st (preload_demo_sales st)

/-- A state the program can be in: reachable from the seeded module state
by any sequence of menu actions (preload_demo_sales runs at startup, but
nothing in the proofs depends on it running exactly once or first). -/
def Reachable (st : LState) : Prop :=
  Relation.ReflTransGen Step initial_state st

/-- The stock of every catalog product is non-negative. -/
def StocksOk (st : LState) : Prop :=
  ∀ kv ∈ st.inventory, 0 ≤ kv.2.stock

/-- The gross and net amount of every recorded sale is an exact multiple
of one cent. -/
def SalesCent (st : LState) : Prop :=
  ∀ s ∈ st.sales, isCent s.gross ∧ isCent s.net

theorem update_product_stock (p : Product) (u : UpdateInput)
    (h : 0 ≤ p.stock) : 0 ≤ (update_product p u).stock := by
  unfold update_product
  cases u.stock with
  | blank => exact h
  | malformed => exact h
  | value v =>
    by_cases hv : v < 0
    · simp only [if_pos hv]
      exact h
    · simp only [if_neg hv]
      exact le_of_not_lt hv

theorem stocksOk_setProd {st : LState} {pid : ℤ} {p : Product}
    (hst : StocksOk st) (hp : 0 ≤ p.stock) :
    ∀ kv ∈ setProd st.inventory pid p, 0 ≤ kv.2.stock := by
  intro kv2 h2
  rcases mem_setProd h2 with h2 | h2
  · rw [h2]; exact hp
  · exact hst kv2 h2

theorem sale_result_inv {st : LState} {client ctype : String}
    {pid qty : ℤ} {p : Product} (hle : qty ≤ p.stock)
    (h1 : StocksOk st) (h2 : SalesCent st) :
    StocksOk (sale_result st client ctype pid qty p) ∧
      SalesCent (sale_result st client ctype pid qty p) := by
  constructor
  · exact stocksOk_setProd h1 (show (0 : ℤ) ≤ p.stock - qty by omega)
  · intro s hs
    rcases List.mem_append.1 hs with hs | hs
    · exact h2 s hs
    · rcases List.mem_singleton.1 hs with rfl
      exact ⟨isCent_round2 _, isCent_round2 _⟩

theorem preload_step_inv {st : LState} (d : DemoSale)
    (h1 : StocksOk st) (h2 : SalesCent st) :
    StocksOk (preload_step st d) ∧ SalesCent (preload_step st d) := by
  unfold preload_step preload_sale_result preload_sale_record
  cases hm : lookupProd st.inventory d.product_id with
  | none => exact ⟨h1, h2⟩
  | some p =>
    by_cases hq : min d.quantity p.stock ≤ 0
    · simp only [if_pos hq]
      exact ⟨h1, h2⟩
    · simp only [if_neg hq]
      constructor
      · exact stocksOk_setProd h1
          (show (0 : ℤ) ≤ p.stock - min d.quantity p.stock by omega)
      · intro s hs
        rcases List.mem_append.1 hs with hs | hs
        · exact h2 s hs
        · rcases List.mem_singleton.1 hs with rfl
          exact ⟨isCent_round2 _, isCent_round2 _⟩

theorem preload_inv {st : LState}
    (h1 : StocksOk st) (h2 : SalesCent st) :
    StocksOk (preload_demo_sales st) ∧ SalesCent (preload_demo_sales st) := by
  unfold preload_demo_sales
  generalize demo_sales_data = l
  induction l generalizing st with
  | nil => exact ⟨h1, h2⟩
  | cons d rest ih =>
    rw [List.foldl_cons]
    rcases preload_step_inv d h1 h2 with ⟨g1, g2⟩
    exact ih g1 g2

theorem step_inv {st st2 : LState} (h : Step st st2)
    (h1 : StocksOk st) (h2 : SalesCent st) :
    StocksOk st2 ∧ SalesCent st2 := by
  cases h with
  | register name brand category price stock warranty hp hs hw =>
    constructor
    · intro kv hkv
      rcases List.mem_append.1 hkv with hkv | hkv
      · exact h1 kv hkv
      · rcases List.mem_singleton.1 hkv with rfl
        exact hs
    · exact h2
  | update pid u =>
    constructor
    · intro kv hkv
      rcases List.mem_map.1 hkv with ⟨kv0, hkv0, hkve⟩
      by_cases hk : kv0.1 = pid
      · rw [if_pos hk] at hkve
        rw [← hkve]
        exact update_product_stock _ _ (h1 kv0 hkv0)
      · rw [if_neg hk] at hkve
        rw [← hkve]
        exact h1 kv0 hkv0
    · exact h2
  | sale client client_type pid qty hq =>
    unfold register_sale_menu
    cases hr : register_sale st client client_type pid qty with
    | error e => exact ⟨h1, h2⟩
    | ok st3 =>
      rcases register_sale_ok_elim hr with ⟨p, hp, hle, rfl⟩
      exact sale_result_inv hle h1 h2
  | del pid =>
    unfold delete_product_menu delete_product
    cases hm : lookupProd st.inventory pid with
    | none => exact ⟨h1, h2⟩
    | some p =>
      by_cases hs : st.sales.any (fun s => s.product_id = pid)
      · simp only [if_pos hs]
        exact ⟨h1, h2⟩
      · simp only [if_neg hs]
        refine ⟨fun kv hkv => h1 kv (List.mem_of_mem_filter hkv), h2⟩
  | preload => exact preload_inv h1 h2

/-- Every reachable state has non-negative stocks and cent-valued sale
amounts. -/
theorem reachable_inv {st : LState} (h : Reachable st) :
    StocksOk st ∧ SalesCent st := by
  induction h with
  | refl =>
    constructor
    · intro kv hkv
      fin_cases hkv <;>
        norm_num [p_aurora, p_volt, p_nexus, p_pixelcam, p_smartplug]
    · intro s hs
      exact absurd hs (List.not_mem_nil s)
  | tail hr hstep ih => exact step_inv hstep ih.1 ih.2

/- -----------------------------------------------------------------
   Helper lemmas: preload_step inversion, concrete states
   ----------------------------------------------------------------- -/

theorem preload_step_none {st : LState} {d : DemoSale}
    (hp : lookupProd st.inventory d.product_id = none) :
    preload_step st d = st := by
  unfold preload_step
  rw [hp]

theorem preload_step_lookup {st : LState} {d : DemoSale} {p : Product}
    (hp : lookupProd st.inventory d.product_id = some p) :
    preload_step st d =
      if min d.quantity p.stock ≤ 0 then st
      else preload_sale_result st d p (min d.quantity p.stock) := by
  unfold preload_step
  rw [hp]

/-- The state the user sees when the menu first appears: the seeded catalog
after the startup preload (src/simulacro.py lines 427-430). -/
def demoState : LState := preload_demo_sales initial_state

theorem demoState_reachable : Reachable demoState :=
  Relation.ReflTransGen.single (Step.preload initial_state)

/- -----------------------------------------------------------------
   C1: sale registration semantics
   ----------------------------------------------------------------- -/

/-- C1: for a sale request of quantity q at least 1 on a product with
stock s: when q ≤ s the operation returns the success state, which appends
exactly one sale record to the log and sets that product's stock to s - q
while leaving every other product unchanged; when q > s it fails with
InsufficientStock and the menu state is unchanged (no partial
fulfillment). -/
theorem claim_C1_register_sale (st : LState) (client ctype : String)
    (pid qty : ℤ) (p : Product)
    (hp : lookupProd st.inventory pid = some p) (hq : 1 ≤ qty) :
    (qty ≤ p.stock →
       register_sale st client ctype pid qty =
         .ok (sale_result st client ctype pid qty p) ∧
       (sale_result st client ctype pid qty p).sales =
         st.sales ++ [sale_record st client ctype pid qty p] ∧
       lookupProd (sale_result st client ctype pid qty p).inventory pid =
         some { p with stock := p.stock - qty } ∧
       (∀ pid2, pid2 ≠ pid →
         lookupProd (sale_result st client ctype pid qty p).inventory pid2 =
           lookupProd st.inventory pid2)) ∧
    (p.stock < qty →
       register_sale st client ctype pid qty = .error .InsufficientStock ∧
       register_sale_menu st client ctype pid qty = st) := by
  constructor
  · intro hle
    refine ⟨register_sale_eq_ok hp hle, rfl, ?_, ?_⟩
    · exact lookupProd_setProd_self _ hp
    · intro pid2 h2
      exact lookupProd_setProd_ne _ h2
  · intro hgt
    refine ⟨register_sale_eq_err hp hgt, ?_⟩
    unfold register_sale_menu
    rw [register_sale_eq_err hp hgt]

theorem claim_C1_register_sale_witness :
    (register_sale initial_state "Cara" "regular" 1 2 =
       .ok (sale_result initial_state "Cara" "regular" 1 2 p_aurora)) ∧
    register_sale_menu initial_state "Cara" "regular" 4 100 =
      initial_state := by
  constructor
  · exact ((claim_C1_register_sale initial_state "Cara" "regular" 1 2
      p_aurora rfl (by norm_num)).1
      (by with_unfolding_all decide)).1
  · exact ((claim_C1_register_sale initial_state "Cara" "regular" 4 100
      p_pixelcam rfl (by norm_num)).2
      (by with_unfolding_all decide)).2

/- -----------------------------------------------------------------
   C2: per-sale amount formulas
   ----------------------------------------------------------------- -/

/-- A catalog state holding a product priced at five cents, obtained by a
valid product registration on the seeded state. -/
def centState : LState :=
  register_product initial_state "Tiny Sticker" "Brandy" "Misc" (1/20) 5 0

/-- C2, counterexample: register_sale does not satisfy
net = round(gross * (1 - discount/100), 2).  Selling one unit of a 0.05
product to a vip client records net = 0.05 (the code rounds the discount
amount first: round(0.05 * 0.10, 2) = 0, so net = 0.05), while the claimed
formula gives round(0.045, 2) = 0.04. -/
theorem claim_C2_counterexample :
    ((register_sale centState "Ann" "vip" 6 1).toOption.map
        (fun st => st.sales.map (fun s =>
          (s.net, round2 (s.gross * (1 - s.discount_pct / 100)))))) =
      some [(1/20, 1/25)] ∧ ((1/20 : ℚ) ≠ 1/25) :=
  ⟨by with_unfolding_all decide, by with_unfolding_all decide⟩

/-- C2, amended: for every sale recorded by register_sale,
gross = round(price * quantity, 2), the discount amount is
round(gross * (discount/100), 2), net = round(gross - discount_amount, 2),
and the discount amount equals gross - net.  (register_sale computes net
via the rounded discount amount, not as
round(gross * (1 - discount/100), 2).) -/
theorem claim_C2_sale_amounts (st : LState) (client ctype : String)
    (pid qty : ℤ) (p : Product) {st2 : LState}
    (hp : lookupProd st.inventory pid = some p)
    (hok : register_sale st client ctype pid qty = .ok st2) :
    st2.sales = st.sales ++ [sale_record st client ctype pid qty p] ∧
    (sale_record st client ctype pid qty p).discount_pct =
      calculate_discount_pct ctype ∧
    (sale_record st client ctype pid qty p).gross =
      round2 (p.price * (qty : ℚ)) ∧
    (sale_record st client ctype pid qty p).net =
      round2 ((sale_record st client ctype pid qty p).gross -
        round2 ((sale_record st client ctype pid qty p).gross *
          ((sale_record st client ctype pid qty p).discount_pct / 100))) ∧
    (sale_record st client ctype pid qty p).gross -
        (sale_record st client ctype pid qty p).net =
      round2 ((sale_record st client ctype pid qty p).gross *
        ((sale_record st client ctype pid qty p).discount_pct / 100)) := by
  rcases register_sale_ok_elim hok with ⟨p2, hp2, hle, rfl⟩
  rw [hp] at hp2
  obtain rfl : p = p2 := Option.some_injective _ hp2
  refine ⟨rfl, rfl, rfl, rfl, ?_⟩
  have h1 : (sale_record st client ctype pid qty p).net =
      (sale_record st client ctype pid qty p).gross -
        round2 ((sale_record st client ctype pid qty p).gross *
          ((sale_record st client ctype pid qty p).discount_pct / 100)) :=
    round2_eq_self (isCent_sub (isCent_round2 _) (isCent_round2 _))
  rw [h1]
  ring

theorem claim_C2_sale_amounts_witness :
    (sale_result initial_state "Walt" "wholesale" 2 4 p_volt).sales =
      ([] : List Sale) ++
        [sale_record initial_state "Walt" "wholesale" 2 4 p_volt] ∧
    (sale_record initial_state "Walt" "wholesale" 2 4 p_volt).gross -
        (sale_record initial_state "Walt" "wholesale" 2 4 p_volt).net =
      round2 ((sale_record initial_state "Walt" "wholesale" 2 4 p_volt).gross *
        ((sale_record initial_state "Walt" "wholesale" 2 4
            p_volt).discount_pct / 100)) ∧
    (sale_record initial_state "Walt" "wholesale" 2 4 p_volt).gross =
      158 ∧
    (sale_record initial_state "Walt" "wholesale" 2 4 p_volt).net =
      1343/10 := by
  have h := claim_C2_sale_amounts initial_state "Walt" "wholesale" 2 4 p_volt
    rfl
    (@register_sale_eq_ok initial_state "Walt" "wholesale" 2 4 p_volt
      rfl (by with_unfolding_all decide))
  exact ⟨h.1, h.2.2.2.2, by with_unfolding_all decide,
    by with_unfolding_all decide⟩

/- -----------------------------------------------------------------
   C4: stocks never negative
   ----------------------------------------------------------------- -/

/-- C4: in every state reachable by any sequence of operations (product
registration, update, sale registration, deletion, demo preload), every
catalog product's stock is non-negative. -/
theorem claim_C4_stock_nonneg (st : LState) (h : Reachable st)
    (pid : ℤ) (p : Product) (hmem : (pid, p) ∈ st.inventory) :
    0 ≤ p.stock :=
  (reachable_inv h).1 (pid, p) hmem

theorem claim_C4_stock_nonneg_witness :
    0 ≤ p_aurora.stock ∧
    0 ≤ ({ p_smartplug with stock := 40 } : Product).stock :=
  ⟨claim_C4_stock_nonneg initial_state Relation.ReflTransGen.refl 1 p_aurora
      (List.Mem.head _),
   claim_C4_stock_nonneg demoState demoState_reachable 5
      { p_smartplug with stock := 40 } (lookupProd_mem rfl)⟩

/- -----------------------------------------------------------------
   C6: discount mapping
   ----------------------------------------------------------------- -/

/-- C6: the discount mapping is a total function of the client-type string
that depends only on its lower-cased form (case-insensitive): any casing of
vip maps to 10, of employee to 30, of wholesale to 15, and every other
string (including regular) maps to 0. -/
theorem claim_C6_discount :
    (∀ s t : String, strLower s = strLower t →
        calculate_discount_pct s = calculate_discount_pct t) ∧
    (∀ s, strLower s = "vip" → calculate_discount_pct s = 10) ∧
    (∀ s, strLower s = "employee" → calculate_discount_pct s = 30) ∧
    (∀ s, strLower s = "wholesale" → calculate_discount_pct s = 15) ∧
    (∀ s, strLower s ≠ "vip" → strLower s ≠ "employee" →
        strLower s ≠ "wholesale" → calculate_discount_pct s = 0) := by
  refine ⟨?_, ?_, ?_, ?_, ?_⟩
  · intro s t h
    simp only [calculate_discount_pct]
    rw [h]
  · intro s h
    simp only [calculate_discount_pct]
    rw [h]
    rfl
  · intro s h
    simp only [calculate_discount_pct]
    rw [h]
    rfl
  · intro s h
    simp only [calculate_discount_pct]
    rw [h]
    rfl
  · intro s h1 h2 h3
    simp only [calculate_discount_pct]
    rw [if_neg h1, if_neg h2, if_neg h3]

theorem claim_C6_discount_witness :
    calculate_discount_pct "VIP" = 10 ∧
    calculate_discount_pct "Employee" = 30 ∧
    calculate_discount_pct "WholeSALE" = 15 ∧
    calculate_discount_pct "Regular" = 0 ∧
    calculate_discount_pct "gold" = 0 :=
  ⟨claim_C6_discount.2.1 "VIP" (by with_unfolding_all decide),
   claim_C6_discount.2.2.1 "Employee" (by with_unfolding_all decide),
   claim_C6_discount.2.2.2.1 "WholeSALE" (by with_unfolding_all decide),
   claim_C6_discount.2.2.2.2 "Regular" (by with_unfolding_all decide)
     (by with_unfolding_all decide) (by with_unfolding_all decide),
   claim_C6_discount.2.2.2.2 "gold" (by with_unfolding_all decide)
     (by with_unfolding_all decide) (by with_unfolding_all decide)⟩

/- -----------------------------------------------------------------
   C5: product deletion and referential integrity
   ----------------------------------------------------------------- -/

theorem delete_product_lookup {st : LState} {pid : ℤ} {p : Product}
    (hp : lookupProd st.inventory pid = some p) :
    delete_product st pid =
      if st.sales.any (fun s => s.product_id = pid) then .error .Conflict
      else .ok { st with
                   inventory := st.inventory.filter (fun kv => kv.1 ≠ pid) } := by
  unfold delete_product
  rw [hp]

theorem lookupProd_filter_self (inv : List (ℤ × Product)) (pid : ℤ) :
    lookupProd (inv.filter (fun kv => kv.1 ≠ pid)) pid = none := by
  induction inv with
  | nil => rfl
  | cons kv rest ih =>
    rw [List.filter_cons]
    by_cases hk : kv.1 = pid
    · rw [if_neg (by simp [hk])]
      exact ih
    · rw [if_pos (by simp [hk]), lookupProd_cons, if_neg hk]
      exact ih

theorem lookupProd_filter_ne {inv : List (ℤ × Product)} {pid pid2 : ℤ}
    (h : pid2 ≠ pid) :
    lookupProd (inv.filter (fun kv => kv.1 ≠ pid)) pid2 =
      lookupProd inv pid2 := by
  induction inv with
  | nil => rfl
  | cons kv rest ih =>
    rw [List.filter_cons, lookupProd_cons]
    by_cases hk : kv.1 = pid
    · have hne : kv.1 ≠ pid2 := by rw [hk]; exact fun e => h e.symm
      rw [if_neg (by simp [hk]), if_neg hne]
      exact ih
    · rw [if_pos (by simp [hk]), lookupProd_cons]
      by_cases h2 : kv.1 = pid2
      · rw [if_pos h2, if_pos h2]
      · rw [if_neg h2, if_neg h2]
        exact ih

/-- C5: deleting a product that at least one sale references fails with
Conflict and leaves the state unchanged; deleting a product no sale
references removes exactly that product from the catalog and leaves the
sales log (and every other product) unchanged. -/
theorem claim_C5_delete_product (st : LState) (pid : ℤ) (p : Product)
    (hp : lookupProd st.inventory pid = some p) :
    ((∃ s ∈ st.sales, s.product_id = pid) →
       delete_product st pid = .error .Conflict ∧
       delete_product_menu st pid = st) ∧
    ((∀ s ∈ st.sales, s.product_id ≠ pid) →
       delete_product st pid =
         .ok { st with
                 inventory := st.inventory.filter (fun kv => kv.1 ≠ pid) } ∧
       lookupProd (delete_product_menu st pid).inventory pid = none ∧
       (∀ pid2, pid2 ≠ pid →
          lookupProd (delete_product_menu st pid).inventory pid2 =
            lookupProd st.inventory pid2) ∧
       (delete_product_menu st pid).sales = st.sales) := by
  have hd := delete_product_lookup hp
  constructor
  · intro hex
    have hany : st.sales.any (fun s => s.product_id = pid) = true := by
      rw [List.any_eq_true]
      rcases hex with ⟨s, hs, he⟩
      exact ⟨s, hs, by simp [he]⟩
    constructor
    · rw [hd, if_pos hany]
    · unfold delete_product_menu
      rw [hd, if_pos hany]
  · intro hall
    have hany : ¬ (st.sales.any (fun s => s.product_id = pid) = true) := by
      rw [List.any_eq_true]
      rintro ⟨s, hs, he⟩
      exact hall s hs (by simpa using he)
    have hok : delete_product st pid =
        .ok { st with
                inventory := st.inventory.filter (fun kv => kv.1 ≠ pid) } := by
      rw [hd, if_neg hany]
    have hmenu : delete_product_menu st pid =
        { st with
            inventory := st.inventory.filter (fun kv => kv.1 ≠ pid) } := by
      unfold delete_product_menu
      rw [hok]
    refine ⟨hok, ?_, ?_, ?_⟩
    · rw [hmenu]
      exact lookupProd_filter_self _ _
    · intro pid2 h2
      rw [hmenu]
      exact lookupProd_filter_ne h2
    · rw [hmenu]

theorem claim_C5_delete_product_witness :
    delete_product_menu demoState 1 = demoState ∧
    (delete_product_menu initial_state 3).sales = [] ∧
    lookupProd (delete_product_menu initial_state 3).inventory 3 = none ∧
    lookupProd (delete_product_menu initial_state 3).inventory 1 =
      some p_aurora := by
  have h1 := claim_C5_delete_product demoState 1 { p_aurora with stock := 22 }
    rfl
  have h2 := claim_C5_delete_product initial_state 3 p_nexus rfl
  rcases h2.2 (by intro s hs; simp [initial_state] at hs) with
    ⟨hok, hnone, hne, hsales⟩
  exact ⟨(h1.1 (by with_unfolding_all decide)).2, hsales.trans rfl, hnone,
    (hne 1 (by norm_num)).trans rfl⟩

/- -----------------------------------------------------------------
   C8: income report totals
   ----------------------------------------------------------------- -/

/-- C8: for every reachable state with a non-empty sales log, the income
report returns total gross = sum of sale gross amounts, total net = sum of
sale net amounts, and total discount = round(total gross - total net, 2);
all three totals are already exact two-decimal values (rounding them is the
identity), so total discount equals total gross minus total net. -/
theorem claim_C8_income_report (st : LState) (h : Reachable st)
    (hne : st.sales ≠ []) :
    income_report st.sales =
      some ((st.sales.map (fun s => s.gross)).sum,
            (st.sales.map (fun s => s.net)).sum,
            round2 ((st.sales.map (fun s => s.gross)).sum -
              (st.sales.map (fun s => s.net)).sum)) ∧
    round2 ((st.sales.map (fun s => s.gross)).sum) =
      (st.sales.map (fun s => s.gross)).sum ∧
    round2 ((st.sales.map (fun s => s.net)).sum) =
      (st.sales.map (fun s => s.net)).sum ∧
    round2 ((st.sales.map (fun s => s.gross)).sum -
        (st.sales.map (fun s => s.net)).sum) =
      (st.sales.map (fun s => s.gross)).sum -
        (st.sales.map (fun s => s.net)).sum := by
  have hc := (reachable_inv h).2
  have hg : isCent ((st.sales.map (fun s => s.gross)).sum) := by
    refine isCent_sum ?_
    intro q hq
    rcases List.mem_map.1 hq with ⟨s, hs, rfl⟩
    exact (hc s hs).1
  have hn : isCent ((st.sales.map (fun s => s.net)).sum) := by
    refine isCent_sum ?_
    intro q hq
    rcases List.mem_map.1 hq with ⟨s, hs, rfl⟩
    exact (hc s hs).2
  refine ⟨?_, round2_eq_self hg, round2_eq_self hn,
    round2_eq_self (isCent_sub hg hn)⟩
  unfold income_report
  rw [if_neg hne]

theorem claim_C8_income_report_witness :
    income_report demoState.sales =
      some ((demoState.sales.map (fun s => s.gross)).sum,
            (demoState.sales.map (fun s => s.net)).sum,
            round2 ((demoState.sales.map (fun s => s.gross)).sum -
              (demoState.sales.map (fun s => s.net)).sum)) ∧
    (income_report demoState.sales).isSome = true := by
  have h := claim_C8_income_report demoState demoState_reachable
    (by with_unfolding_all decide)
  exact ⟨h.1, by rw [h.1]; rfl⟩

/- -----------------------------------------------------------------
   C9: partial product update
   ----------------------------------------------------------------- -/

/-- C9: a product update applies exactly the supplied fields that pass
validation (non-negative parsed price/stock/warranty, non-blank text) and
keeps the previous value of every field that is not supplied, fails to
parse, or is negative; each field is handled independently, and
initial_stock always keeps its previous value. -/
theorem claim_C9_update_product (p : Product) (u : UpdateInput) :
    (update_product p u).initial_stock = p.initial_stock ∧
    (∀ n, u.name = some n → (update_product p u).name = n) ∧
    (u.name = none → (update_product p u).name = p.name) ∧
    (∀ b, u.brand = some b → (update_product p u).brand = b) ∧
    (u.brand = none → (update_product p u).brand = p.brand) ∧
    (∀ c, u.category = some c → (update_product p u).category = c) ∧
    (u.category = none → (update_product p u).category = p.category) ∧
    (∀ v, u.price = .value v → 0 ≤ v →
       (update_product p u).price = round2 v) ∧
    (∀ v, u.price = .value v → v < 0 →
       (update_product p u).price = p.price) ∧
    (u.price = .blank → (update_product p u).price = p.price) ∧
    (u.price = .malformed → (update_product p u).price = p.price) ∧
    (∀ v, u.stock = .value v → 0 ≤ v → (update_product p u).stock = v) ∧
    (∀ v, u.stock = .value v → v < 0 →
       (update_product p u).stock = p.stock) ∧
    (u.stock = .blank → (update_product p u).stock = p.stock) ∧
    (u.stock = .malformed → (update_product p u).stock = p.stock) ∧
    (∀ v, u.warranty = .value v → 0 ≤ v →
       (update_product p u).warranty_months = v) ∧
    (∀ v, u.warranty = .value v → v < 0 →
       (update_product p u).warranty_months = p.warranty_months) ∧
    (u.warranty = .blank →
       (update_product p u).warranty_months = p.warranty_months) ∧
    (u.warranty = .malformed →
       (update_product p u).warranty_months = p.warranty_months) := by
  refine ⟨rfl, fun n h => ?_, fun h => ?_, fun b h => ?_, fun h => ?_,
    fun c h => ?_, fun h => ?_,
    fun v h hv => ?_, fun v h hv => ?_, fun h => ?_, fun h => ?_,
    fun v h hv => ?_, fun v h hv => ?_, fun h => ?_, fun h => ?_,
    fun v h hv => ?_, fun v h hv => ?_, fun h => ?_, fun h => ?_⟩ <;>
    simp only [update_product] <;> rw [h] <;>
    first
      | rfl
      | (dsimp only; rw [if_neg (not_lt.mpr hv)])
      | (dsimp only; rw [if_pos hv])

/-- A sample update: new name, new category, negative price (rejected),
malformed stock (rejected), valid warranty. -/
def u_sample : UpdateInput :=
  { name := some "Aurora Max", brand := none, category := some "Audio Plus",
    price := .value (-5), stock := .malformed, warranty := .value 18 }

theorem claim_C9_update_product_witness :
    (update_product p_aurora u_sample).initial_stock =
      p_aurora.initial_stock ∧
    (update_product p_aurora u_sample).name = "Aurora Max" ∧
    (update_product p_aurora u_sample).brand = p_aurora.brand ∧
    (update_product p_aurora u_sample).category = "Audio Plus" ∧
    (update_product p_aurora u_sample).price = p_aurora.price ∧
    (update_product p_aurora u_sample).stock = p_aurora.stock ∧
    (update_product p_aurora u_sample).warranty_months = 18 := by
  obtain ⟨h0, h1, h2, h3, h4, h5, h6, h7, h8, h9, h10, h11, h12, h13, h14,
    h15, h16, h17, h18⟩ := claim_C9_update_product p_aurora u_sample
  exact ⟨h0, h1 "Aurora Max" rfl, h4 rfl, h5 "Audio Plus" rfl,
    h8 (-5) rfl (by norm_num), h14 rfl, h15 18 rfl (by norm_num)⟩

/- -----------------------------------------------------------------
   C10: startup demo preload
   ----------------------------------------------------------------- -/

/-- C10: the startup preload on the seeded catalog records exactly five
demo sales with ids 1..5, clients Alice/Bob/Charlie Co./Diana/Eve, the
hard-coded product ids and quantities, and decrements the stocks to
22/35/9/4/40, so when the menu first appears the sales log is non-empty and
the stocks differ from the seeded catalog.  In general each demo item is
skipped when its product id is missing, skipped when the clamped quantity
min(requested, stock) is not positive, and otherwise recorded with exactly
the clamped quantity while the product's stock drops by it. -/
theorem claim_C10_preload :
    (preload_demo_sales initial_state).sales.map
        (fun s => (s.sale_id, s.client, s.product_id, s.quantity)) =
      [(1, "Alice", 1, 3), (2, "Bob", 2, 5), (3, "Charlie Co.", 5, 20),
       (4, "Diana", 3, 1), (5, "Eve", 4, 2)] ∧
    (preload_demo_sales initial_state).inventory.map
        (fun kv => (kv.1, kv.2.stock)) =
      [(1, 22), (2, 35), (3, 9), (4, 4), (5, 40)] ∧
    (preload_demo_sales initial_state).sales ≠ [] ∧
    (preload_demo_sales initial_state).inventory.map
        (fun kv => (kv.1, kv.2.stock)) ≠
      initial_state.inventory.map (fun kv => (kv.1, kv.2.stock)) ∧
    (preload_demo_sales initial_state).inventory ≠
      initial_state.inventory ∧
    (∀ st : LState, ∀ d : DemoSale,
       lookupProd st.inventory d.product_id = none →
       preload_step st d = st) ∧
    (∀ st : LState, ∀ d : DemoSale, ∀ p : Product,
       lookupProd st.inventory d.product_id = some p →
       min d.quantity p.stock ≤ 0 → preload_step st d = st) ∧
    (∀ st : LState, ∀ d : DemoSale, ∀ p : Product,
       lookupProd st.inventory d.product_id = some p →
       0 < min d.quantity p.stock →
       (preload_step st d).sales =
         st.sales ++ [preload_sale_record st d p (min d.quantity p.stock)] ∧
       (preload_sale_record st d p (min d.quantity p.stock)).quantity =
         min d.quantity p.stock ∧
       lookupProd (preload_step st d).inventory d.product_id =
         some { p with stock := p.stock - min d.quantity p.stock }) := by
  have hmapne : (preload_demo_sales initial_state).inventory.map
      (fun kv => (kv.1, kv.2.stock)) ≠
      initial_state.inventory.map (fun kv => (kv.1, kv.2.stock)) := by
    with_unfolding_all decide
  refine ⟨by with_unfolding_all decide, by with_unfolding_all decide,
    by with_unfolding_all decide, hmapne,
    fun h => hmapne (by rw [h]), ?_, ?_, ?_⟩
  · intro st d hnone
    exact preload_step_none hnone
  · intro st d p hp hq
    rw [preload_step_lookup hp, if_pos hq]
  · intro st d p hp hq
    have hstep : preload_step st d =
        preload_sale_result st d p (min d.quantity p.stock) := by
      rw [preload_step_lookup hp, if_neg (not_le.mpr hq)]
    refine ⟨by rw [hstep]; rfl, rfl, ?_⟩
    rw [hstep]
    exact lookupProd_setProd_self _ hp

/-- A state holding a single product that is out of stock. -/
def zeroStockState : LState :=
  { inventory := [(7, { p_nexus with stock := 0 })]
    sales := []
    next_sale_id := 1
    next_product_id := 8 }

/- Three concrete demo items for the witness: a missing product id, an
   out-of-stock product, and the first real demo sale. -/
def d_missing : DemoSale :=
  { client := "Zed", client_type := "regular", product_id := 99,
    quantity := 5 }

def d_zero : DemoSale :=
  { client := "Zed", client_type := "regular", product_id := 7,
    quantity := 5 }

def d_alice : DemoSale :=
  { client := "Alice", client_type := "vip", product_id := 1, quantity := 3 }

theorem claim_C10_preload_witness :
    preload_step initial_state d_missing = initial_state ∧
    preload_step zeroStockState d_zero = zeroStockState ∧
    (preload_step initial_state d_alice).sales =
      initial_state.sales ++
        [preload_sale_record initial_state d_alice p_aurora 3] := by
  obtain ⟨c1, c2, c3, c4, c5, h_none, h_clamp, h_succ⟩ := claim_C10_preload
  refine ⟨h_none initial_state d_missing rfl, ?_, ?_⟩
  · exact h_clamp zeroStockState d_zero { p_nexus with stock := 0 } rfl
      (by norm_num [d_zero])
  · exact (h_succ initial_state d_alice p_aurora rfl
      (by norm_num [d_alice, p_aurora])).1

/- -----------------------------------------------------------------
   Helper lemmas: quantity aggregation (shared by C3 and C7)
   ----------------------------------------------------------------- -/

theorem lookupKV_cons (kv : ℤ × ℤ) (rest : List (ℤ × ℤ)) (pid : ℤ) :
    lookupKV (kv :: rest) pid =
      if kv.1 = pid then some kv.2 else lookupKV rest pid := rfl

theorem lookupKV_append_left {a : List (ℤ × ℤ)} {pid : ℤ} {v : ℤ}
    (h : lookupKV a pid = some v) (b : List (ℤ × ℤ)) :
    lookupKV (a ++ b) pid = some v := by
  induction a with
  | nil => simp [lookupKV] at h
  | cons kv rest ih =>
    rw [List.cons_append, lookupKV_cons]
    rw [lookupKV_cons] at h
    by_cases hk : kv.1 = pid
    · rw [if_pos hk] at h ⊢
      exact h
    · rw [if_neg hk] at h ⊢
      exact ih h

theorem lookupKV_append_right {a : List (ℤ × ℤ)} {pid : ℤ}
    (h : lookupKV a pid = none) (b : List (ℤ × ℤ)) :
    lookupKV (a ++ b) pid = lookupKV b pid := by
  induction a with
  | nil => rfl
  | cons kv rest ih =>
    rw [List.cons_append, lookupKV_cons]
    rw [lookupKV_cons] at h
    by_cases hk : kv.1 = pid
    · rw [if_pos hk] at h
      exact absurd h (by simp)
    · rw [if_neg hk] at h
      rw [if_neg hk]
      exact ih h

theorem lookupKV_map_add (k q pid : ℤ) (acc : List (ℤ × ℤ)) :
    lookupKV
        (acc.map (fun kv => if kv.1 = k then (kv.1, kv.2 + q) else kv)) pid =
      if pid = k then (lookupKV acc pid).map (fun v => v + q)
      else lookupKV acc pid := by
  induction acc with
  | nil => by_cases hpk : pid = k <;> simp [lookupKV, hpk]
  | cons kv rest ih =>
    rw [List.map_cons, lookupKV_cons, lookupKV_cons]
    by_cases hkk : kv.1 = k
    · rw [if_pos hkk]
      by_cases hk1 : kv.1 = pid
      · have hpk : pid = k := by rw [← hk1, hkk]
        rw [if_pos (show (kv.1, kv.2 + q).1 = pid from hk1), if_pos hpk,
          if_pos hk1]
        rfl
      · rw [if_neg (show ¬ (kv.1, kv.2 + q).1 = pid from hk1), if_neg hk1,
          ih]
    · rw [if_neg hkk]
      by_cases hk1 : kv.1 = pid
      · have hpk : ¬ pid = k := by rw [← hk1]; exact hkk
        rw [if_pos hk1, if_pos hk1, if_neg hpk]
      · rw [if_neg hk1, if_neg hk1, ih]

theorem map_fst_map_add (k q : ℤ) (acc : List (ℤ × ℤ)) :
    (acc.map (fun kv => if kv.1 = k then (kv.1, kv.2 + q) else kv)).map
        Prod.fst = acc.map Prod.fst := by
  rw [List.map_map]
  congr 1
  funext kv
  by_cases hk : kv.1 = k <;> simp [hk]

theorem soldTotals_concat (l : List Sale) (s : Sale) :
    soldTotals (l ++ [s]) = addSold (soldTotals l) s := by
  unfold soldTotals
  rw [List.foldl_append]
  rfl

theorem firstOccs_concat (l : List Sale) (s : Sale) :
    firstOccs (l ++ [s]) =
      if s.product_id ∈ firstOccs l then firstOccs l
      else firstOccs l ++ [s.product_id] := by
  unfold firstOccs
  rw [List.foldl_append]
  rfl

theorem sumQty_concat (pid : ℤ) (l : List Sale) (s : Sale) :
    sumQty pid (l ++ [s]) =
      sumQty pid l + (if s.product_id = pid then s.quantity else 0) := by
  unfold sumQty
  rw [List.filter_append, List.map_append, List.sum_append]
  by_cases h : s.product_id = pid <;> simp [List.filter_cons, h]

theorem mem_firstOccs (l : List Sale) :
    ∀ pid, pid ∈ firstOccs l ↔ pid ∈ l.map (fun s => s.product_id) := by
  induction l using List.reverseRecOn with
  | nil => intro pid; simp [firstOccs]
  | append_singleton l s ih =>
    intro pid
    rw [firstOccs_concat, List.map_append]
    by_cases hm : s.product_id ∈ firstOccs l
    · rw [if_pos hm, ih pid]
      constructor
      · exact fun h => List.mem_append.2 (Or.inl h)
      · intro h
        rcases List.mem_append.1 h with h | h
        · exact h
        · rcases List.mem_singleton.1 h with rfl
          exact (ih s.product_id).mp hm
    · rw [if_neg hm]
      constructor
      · intro h
        rcases List.mem_append.1 h with h | h
        · exact List.mem_append.2 (Or.inl ((ih pid).mp h))
        · exact List.mem_append.2 (Or.inr h)
      · intro h
        rcases List.mem_append.1 h with h | h
        · exact List.mem_append.2 (Or.inl ((ih pid).mpr h))
        · exact List.mem_append.2 (Or.inr h)

theorem sumQty_eq_zero {l : List Sale} {pid : ℤ}
    (h : pid ∉ l.map (fun s => s.product_id)) : sumQty pid l = 0 := by
  unfold sumQty
  have he : l.filter (fun s => s.product_id = pid) = [] := by
    rw [List.filter_eq_nil_iff]
    intro s hs
    simp only [decide_eq_true_eq]
    intro hc
    exact h (List.mem_map.2 ⟨s, hs, hc⟩)
  rw [he]
  rfl

theorem soldTotals_fst (l : List Sale) :
    (soldTotals l).map Prod.fst = firstOccs l := by
  induction l using List.reverseRecOn with
  | nil => rfl
  | append_singleton l s ih =>
    rw [soldTotals_concat, firstOccs_concat]
    unfold addSold
    by_cases hm : s.product_id ∈ firstOccs l
    · have hm2 : s.product_id ∈ (soldTotals l).map Prod.fst := by
        rw [ih]; exact hm
      have hany :
          (soldTotals l).any (fun kv => kv.1 = s.product_id) = true := by
        rw [List.any_eq_true]
        rcases List.mem_map.1 hm2 with ⟨kv, hkv, he⟩
        exact ⟨kv, hkv, by simp [he]⟩
      rw [if_pos hany, if_pos hm, map_fst_map_add, ih]
    · have hm2 : s.product_id ∉ (soldTotals l).map Prod.fst := by
        rw [ih]; exact hm
      have hany :
          ¬ ((soldTotals l).any (fun kv => kv.1 = s.product_id) = true) := by
        rw [List.any_eq_true]
        rintro ⟨kv, hkv, he⟩
        exact hm2 (List.mem_map.2 ⟨kv, hkv, by simpa using he⟩)
      rw [if_neg hany, if_neg hm, List.map_append, ih]
      rfl

theorem soldTotals_lookup (l : List Sale) :
    ∀ pid, lookupKV (soldTotals l) pid =
      if pid ∈ firstOccs l then some (sumQty pid l) else none := by
  induction l using List.reverseRecOn with
  | nil =>
    intro pid
    simp [soldTotals, firstOccs, lookupKV]
  | append_singleton l s ih =>
    intro pid
    rw [soldTotals_concat, firstOccs_concat]
    unfold addSold
    by_cases hm : s.product_id ∈ firstOccs l
    · have hm2 : s.product_id ∈ (soldTotals l).map Prod.fst := by
        rw [soldTotals_fst]; exact hm
      have hany :
          (soldTotals l).any (fun kv => kv.1 = s.product_id) = true := by
        rw [List.any_eq_true]
        rcases List.mem_map.1 hm2 with ⟨kv, hkv, he⟩
        exact ⟨kv, hkv, by simp [he]⟩
      rw [if_pos hany, if_pos hm, lookupKV_map_add, ih pid, sumQty_concat]
      by_cases hpk : pid = s.product_id
      · have hin : pid ∈ firstOccs l := by rw [hpk]; exact hm
        rw [if_pos hpk, if_pos hin, if_pos hin,
          if_pos (show s.product_id = pid from hpk.symm)]
        rfl
      · rw [if_neg hpk,
          if_neg (show ¬ s.product_id = pid from fun e => hpk e.symm),
          add_zero]
    · have hm2 : s.product_id ∉ (soldTotals l).map Prod.fst := by
        rw [soldTotals_fst]; exact hm
      have hany :
          ¬ ((soldTotals l).any (fun kv => kv.1 = s.product_id) = true) := by
        rw [List.any_eq_true]
        rintro ⟨kv, hkv, he⟩
        exact hm2 (List.mem_map.2 ⟨kv, hkv, by simpa using he⟩)
      rw [if_neg hany, if_neg hm]
      by_cases hpk : pid = s.product_id
      · have hin0 : pid ∉ firstOccs l := by rw [hpk]; exact hm
        have hnone : lookupKV (soldTotals l) pid = none := by
          rw [ih pid, if_neg hin0]
        have hmm : pid ∈ firstOccs l ++ [s.product_id] := by
          rw [hpk]
          exact List.mem_append.2 (Or.inr (List.mem_singleton.2 rfl))
        rw [lookupKV_append_right hnone, lookupKV_cons,
          if_pos (show s.product_id = pid from hpk.symm), if_pos hmm,
          sumQty_concat, if_pos (show s.product_id = pid from hpk.symm),
          sumQty_eq_zero (fun hc => hin0 ((mem_firstOccs l pid).mpr hc)),
          zero_add]
      · have hq : ¬ s.product_id = pid := fun e => hpk e.symm
        have hmm : (pid ∈ firstOccs l ++ [s.product_id]) ↔
            pid ∈ firstOccs l := by
          simp [List.mem_append, hpk]
        by_cases hin : pid ∈ firstOccs l
        · have hv : lookupKV (soldTotals l) pid = some (sumQty pid l) := by
            rw [ih pid, if_pos hin]
          rw [lookupKV_append_left hv, if_pos (hmm.mpr hin), sumQty_concat,
            if_neg hq, add_zero]
        · have hnone : lookupKV (soldTotals l) pid = none := by
            rw [ih pid, if_neg hin]
          rw [lookupKV_append_right hnone, lookupKV_cons, if_neg hq,
            if_neg (fun hc => hin (hmm.mp hc))]
          rfl

/- -----------------------------------------------------------------
   Helper lemmas: stability of the descending sort
   ----------------------------------------------------------------- -/

theorem filter_orderedInsert (x : ℤ × ℤ) (l : List (ℤ × ℤ)) (v : ℤ) :
    (l.orderedInsert saleOrd x).filter (fun kv => kv.2 = v) =
      if x.2 = v then x :: l.filter (fun kv => kv.2 = v)
      else l.filter (fun kv => kv.2 = v) := by
  induction l with
  | nil =>
    by_cases hx : x.2 = v <;> simp [List.orderedInsert, List.filter, hx]
  | cons b l ih =>
    by_cases hle : saleOrd x b
    · rw [List.orderedInsert, if_pos hle]
      by_cases hx : x.2 = v <;> by_cases hb : b.2 = v <;>
        simp [List.filter_cons, hx, hb]
    · rw [List.orderedInsert, if_neg hle]
      have hbx : x.2 < b.2 := not_le.mp hle
      by_cases hx : x.2 = v
      · have hb : ¬ b.2 = v := by omega
        simp [List.filter_cons, hx, hb, ih]
      · by_cases hb : b.2 = v <;> simp [List.filter_cons, hx, hb, ih]

theorem filter_sortDesc (l : List (ℤ × ℤ)) (v : ℤ) :
    (sortDesc l).filter (fun kv => kv.2 = v) =
      l.filter (fun kv => kv.2 = v) := by
  induction l with
  | nil => rfl
  | cons x l ih =>
    rw [show sortDesc (x :: l) =
        List.orderedInsert saleOrd x (sortDesc l) from rfl]
    rw [filter_orderedInsert]
    by_cases hx : x.2 = v <;> simp [List.filter_cons, hx, ih]

/- -----------------------------------------------------------------
   C3: inventory performance report
   ----------------------------------------------------------------- -/

/-- C3: each catalog product yields one performance row whose sold quantity
is the total sold for its id, whose turnover is sold/initial*100 when the
initial stock is positive and 0 otherwise, and whose status is:
OUT_OF_STOCK when the remaining stock is 0, else FAST_MOVING when turnover
exceeds 50, else SLOW_MOVING when turnover is below 10, else OK.  Both
thresholds are strict: with nonzero stock, turnover exactly 50 or exactly
10 classifies OK, and zero units sold classifies SLOW_MOVING. -/
theorem claim_C3_inventory_performance (st : LState) :
    (∀ pid p, (pid, p) ∈ st.inventory →
       ({ pid := pid, name := p.name, sold := sumQty pid st.sales,
          initial := p.initial_stock, remaining := p.stock,
          turnover := turnover_pct (sumQty pid st.sales) p.initial_stock,
          status := classify p.stock
            (turnover_pct (sumQty pid st.sales) p.initial_stock) } :
         PerfEntry) ∈ inventory_performance st) ∧
    (∀ sold initial : ℤ, 0 < initial →
       turnover_pct sold initial = (sold : ℚ) / (initial : ℚ) * 100) ∧
    (∀ sold initial : ℤ, ¬ 0 < initial → turnover_pct sold initial = 0) ∧
    (∀ t : ℚ, classify 0 t = .OUT_OF_STOCK) ∧
    (∀ rem : ℤ, ∀ t : ℚ, rem ≠ 0 → 50 < t →
       classify rem t = .FAST_MOVING) ∧
    (∀ rem : ℤ, ∀ t : ℚ, rem ≠ 0 → t < 10 →
       classify rem t = .SLOW_MOVING) ∧
    (∀ rem : ℤ, ∀ t : ℚ, rem ≠ 0 → 10 ≤ t → t ≤ 50 →
       classify rem t = .OK) ∧
    (∀ rem : ℤ, rem ≠ 0 → classify rem 50 = .OK) ∧
    (∀ rem : ℤ, rem ≠ 0 → classify rem 10 = .OK) ∧
    (∀ rem initial : ℤ, rem ≠ 0 →
       classify rem (turnover_pct 0 initial) = .SLOW_MOVING) := by
  have hOK : ∀ rem : ℤ, ∀ t : ℚ, rem ≠ 0 → 10 ≤ t → t ≤ 50 →
      classify rem t = .OK := by
    intro rem t hrem h10 h50
    unfold classify
    rw [if_neg hrem, if_neg (show ¬ t > 50 from not_lt.mpr h50),
      if_neg (show ¬ t < 10 from not_lt.mpr h10)]
  have hSLOW : ∀ rem : ℤ, ∀ t : ℚ, rem ≠ 0 → t < 10 →
      classify rem t = .SLOW_MOVING := by
    intro rem t hrem ht
    unfold classify
    rw [if_neg hrem, if_neg (show ¬ t > 50 by linarith), if_pos ht]
  have ht0 : ∀ initial : ℤ, turnover_pct 0 initial = 0 := by
    intro initial
    unfold turnover_pct
    by_cases h : 0 < initial <;> simp [h]
  refine ⟨?_, ?_, ?_, ?_, ?_, hSLOW, hOK,
    fun rem h => hOK rem 50 h (by norm_num) (by norm_num),
    fun rem h => hOK rem 10 h (by norm_num) (by norm_num), ?_⟩
  · intro pid p hmem
    unfold inventory_performance
    refine List.mem_map.2 ⟨(pid, p), hmem, ?_⟩
    have hsold : (lookupKV (soldTotals st.sales) pid).getD 0 =
        sumQty pid st.sales := by
      rw [soldTotals_lookup st.sales pid]
      by_cases hin : pid ∈ firstOccs st.sales
      · rw [if_pos hin]
        rfl
      · rw [if_neg hin,
          sumQty_eq_zero (fun hc => hin ((mem_firstOccs _ pid).mpr hc))]
        rfl
    dsimp only
    rw [hsold]
  · intro sold initial h
    unfold turnover_pct
    rw [if_pos h]
  · intro sold initial h
    unfold turnover_pct
    rw [if_neg h]
  · intro t
    unfold classify
    rw [if_pos rfl]
  · intro rem t hrem ht
    unfold classify
    rw [if_neg hrem, if_pos ht]
  · intro rem initial h
    rw [ht0 initial]
    exact hSLOW rem 0 h (by norm_num)

theorem claim_C3_inventory_performance_witness :
    ({ pid := 1, name := p_aurora.name, sold := sumQty 1 demoState.sales,
       initial := 25, remaining := 22,
       turnover := turnover_pct (sumQty 1 demoState.sales) 25,
       status := classify 22
         (turnover_pct (sumQty 1 demoState.sales) 25) } :
      PerfEntry) ∈ inventory_performance demoState ∧
    classify 0 60 = .OUT_OF_STOCK ∧
    classify 5 51 = .FAST_MOVING ∧
    classify 5 (turnover_pct 0 10) = .SLOW_MOVING ∧
    classify 5 50 = .OK ∧
    classify 5 10 = .OK := by
  obtain ⟨hmem, ht1, ht2, hout, hfast, hslow, hok, hb50, hb10, hzero⟩ :=
    claim_C3_inventory_performance demoState
  exact ⟨hmem 1 { p_aurora with stock := 22 } (lookupProd_mem rfl),
    hout 60, hfast 5 51 (by norm_num) (by norm_num),
    hzero 5 10 (by norm_num), hb50 5 (by norm_num), hb10 5 (by norm_num)⟩

/- -----------------------------------------------------------------
   C7: top-N report
   ----------------------------------------------------------------- -/

/-- C7: the Top-N report aggregates sold quantity per product id (keys in
order of first appearance in the sales log, each key holding the total
quantity of its sales), sorts the aggregate descending by quantity with a
stable sort (equal quantities keep their aggregation order: filtering any
quantity value out of the sorted list returns it in the original order),
takes the first n rows, and labels each row with the catalog name or the
Deleted product placeholder when the id is no longer in the catalog. -/
theorem claim_C7_top_n (st : LState) (n : ℕ) :
    ((soldTotals st.sales).map Prod.fst = firstOccs st.sales) ∧
    (∀ pid, lookupKV (soldTotals st.sales) pid =
       if pid ∈ firstOccs st.sales then some (sumQty pid st.sales)
       else none) ∧
    (sortDesc (soldTotals st.sales)).Sorted saleOrd ∧
    (sortDesc (soldTotals st.sales)).Perm (soldTotals st.sales) ∧
    (∀ v : ℤ,
       (sortDesc (soldTotals st.sales)).filter (fun kv => kv.2 = v) =
         (soldTotals st.sales).filter (fun kv => kv.2 = v)) ∧
    (top_n_products st n =
       ((sortDesc (soldTotals st.sales)).take n).map
         (fun kv => (nameFor st kv.1, kv.1, kv.2))) ∧
    (∀ pid, lookupProd st.inventory pid = none →
       nameFor st pid = "Deleted product") ∧
    (∀ pid p, lookupProd st.inventory pid = some p →
       nameFor st pid = p.name) := by
  refine ⟨soldTotals_fst _, soldTotals_lookup _,
    List.sorted_insertionSort saleOrd _, List.perm_insertionSort _ _,
    fun v => filter_sortDesc _ v, rfl, ?_, ?_⟩
  · intro pid h
    unfold nameFor
    rw [h]
  · intro pid p h
    unfold nameFor
    rw [h]

theorem claim_C7_top_n_witness :
    nameFor demoState 99 = "Deleted product" ∧
    nameFor demoState 1 = p_aurora.name ∧
    lookupKV (soldTotals demoState.sales) 5 =
      some (sumQty 5 demoState.sales) := by
  obtain ⟨h1, h2, h3, h4, h5, h6, h7, h8⟩ := claim_C7_top_n demoState 3
  refine ⟨h7 99 rfl, h8 1 { p_aurora with stock := 22 } rfl, ?_⟩
  rw [h2 5, if_pos (by with_unfolding_all decide)]

end Simulacro
